import Mathlib

/-!
Verification development for the SoundSwitch hotkey/audio-device switcher.

The definitions below are a shallow embedding of the Rust sources
(`src/main.rs`, `src/config.rs`, `src/audio_device.rs`).  External
collaborators (the skim fuzzy scorer, the OS default-device commit call,
device enumeration, hotkey registration, the Win32 message pump, the
cross-thread channel) are modelled as explicit oracle parameters; the
control flow around them is translated from the source.
-/

namespace SoundSwitch

/-- Embedding of `AudioDevice` from `src/audio_device.rs`: an opaque stable
`id` and a human readable `name`. -/
structure AudioDevice where
  id : String
  name : String
deriving DecidableEq, Repr

/-- Embedding of the per-hotkey mapping value as `src/main.rs` uses it
(`mapping.device_name`, `mapping.input_device_name`, `mapping.keys`); the
map itself is built by the hotkey-manager module, which registers the keys
with the OS and returns `hotkey_id → mapping`. -/
structure HotkeyMapping where
  keys : String
  device_name : String
  input_device_name : Option String
deriving DecidableEq, Repr

/-- Embedding of `Config` from `src/config.rs`: the fuzzy-match toggle and
the configured hotkey entries. -/
structure Config where
  fuzzy_match : Bool
  hotkeys : List HotkeyMapping
deriving Repr

/-- Embedding of `AppMessage` from `src/main.rs`: the listener-to-coordinator
channel message type. -/
inductive AppMessage where
  | hotkeyError (msg : String)
  | quit
deriving DecidableEq, Repr

/-- Errors of the switch pipeline `find_and_set_output_device` /
`find_and_set_input_device` in `src/main.rs`.  The source returns boxed
error strings; each constructor stands for one of the distinct `format!`
messages, and `commitFailed` for a propagated `set_default_*_device`
failure. -/
inductive SwitchError where
  | noFuzzyMatch (target : String)
  | noExactMatch (target : String)
  | noFuzzyMatchInput (target : String)
  | noExactMatchInput (target : String)
  | commitFailed (cause : String)
deriving DecidableEq, Repr

/-- Embedding of the fuzzy best-candidate loop of `find_and_set_output_device`
(`src/main.rs` lines 224-232): fold over the devices, keep `(score, device)`
when the scorer produces a score and it strictly beats the current best
(`best_match.is_none() || score > best_match.unwrap().0`).  The scorer is an
oracle standing for `SkimMatcherV2::fuzzy_match`; the score type is kept
abstract over a linear order. -/
def bestStep {α : Type} [LinearOrder α] (score : AudioDevice → Option α)
    (best : Option (α × AudioDevice)) (d : AudioDevice) : Option (α × AudioDevice) :=
  match score d with
  | none => best
  | some s =>
    match best with
    | none => some (s, d)
    | some bm => if s > bm.1 then some (s, d) else some bm

/-- The whole fuzzy loop: fold `bestStep` over the candidate list starting
from `best_match = None`. -/
def bestScored {α : Type} [LinearOrder α] (score : AudioDevice → Option α)
    (devices : List AudioDevice) : Option (α × AudioDevice) :=
  devices.foldl (bestStep score) none

/-- Embedding of `find_and_set_output_device` (`src/main.rs` lines 211-268).
`score` stands for `SkimMatcherV2::fuzzy_match(&device.name, target)`,
`commit` for `set_default_output_device(id)`.  Besides the `Result`, the
embedding returns the list of ids passed to `commit`, to make the calls of
the external commit collaborator observable. -/
def find_and_set_output_device (score : String → String → Option Int)
    (commit : String → Except String Unit)
    (target_device_name : String) (available_devices : List AudioDevice)
    (config : Config) : Except SwitchError String × List String :=
  let found_device : Except SwitchError AudioDevice :=
    if config.fuzzy_match then
      match bestScored (fun d => score d.name target_device_name) available_devices with
      | some sd => .ok sd.2
      | none => .error (.noFuzzyMatch target_device_name)
    else
      match available_devices.find? (fun d => d.name == target_device_name) with
      | some device => .ok device
      | none => .error (.noExactMatch target_device_name)
  match found_device with
  | .error e => (.error e, [])
  | .ok device =>
    match commit device.id with
    | .ok _ => (.ok device.name, [device.id])
    | .error e => (.error (.commitFailed e), [device.id])

/-- Embedding of `find_and_set_input_device` (`src/main.rs` lines 271-316):
identical control flow to the output variant, with the input-specific
error messages and `set_default_input_device` as the commit oracle. -/
def find_and_set_input_device (score : String → String → Option Int)
    (commit : String → Except String Unit)
    (target_device_name : String) (available_devices : List AudioDevice)
    (config : Config) : Except SwitchError String × List String :=
  let found_device : Except SwitchError AudioDevice :=
    if config.fuzzy_match then
      match bestScored (fun d => score d.name target_device_name) available_devices with
      | some sd => .ok sd.2
      | none => .error (.noFuzzyMatchInput target_device_name)
    else
      match available_devices.find? (fun d => d.name == target_device_name) with
      | some device => .ok device
      | none => .error (.noExactMatchInput target_device_name)
  match found_device with
  | .error e => (.error e, [])
  | .ok device =>
    match commit device.id with
    | .ok _ => (.ok device.name, [device.id])
    | .error e => (.error (.commitFailed e), [device.id])

/-! ### Matcher lemmas -/

/-- `List.find?` returns the head of the suffix when everything before it
fails the predicate and it satisfies the predicate. -/
theorem find?_first {α : Type} (p : α → Bool) (l₁ l₂ : List α) (d : α)
    (hpre : ∀ x ∈ l₁, p x = false) (hd : p d = true) :
    (l₁ ++ d :: l₂).find? p = some d := by
  induction l₁ with
  | nil => simp [List.find?, hd]
  | cons x xs ih =>
    have hx := hpre x (by simp)
    simpa [List.find?, hx] using ih (fun y hy => hpre y (by simp [hy]))

theorem foldl_bestStep_eq_none_iff {α : Type} [LinearOrder α]
    (score : AudioDevice → Option α) (l : List AudioDevice) :
    ∀ acc : Option (α × AudioDevice),
      l.foldl (bestStep score) acc = none ↔ acc = none ∧ ∀ d ∈ l, score d = none := by
  induction l with
  | nil => intro acc; simp
  | cons x xs ih =>
    intro acc
    have hstep : bestStep score acc x = none ↔ acc = none ∧ score x = none := by
      cases hx : score x with
      | none => simp [bestStep, hx]
      | some s =>
        cases acc with
        | none => simp [bestStep, hx]
        | some bm =>
          by_cases hlt : s > bm.1 <;> simp [bestStep, hx, hlt]
    rw [List.foldl_cons, ih (bestStep score acc x), hstep]
    constructor
    · rintro ⟨⟨h1, h2⟩, h3⟩
      exact ⟨h1, by intro d hd; rcases List.mem_cons.mp hd with h | h
                    · exact h ▸ h2
                    · exact h3 d h⟩
    · rintro ⟨h1, h2⟩
      exact ⟨⟨h1, h2 x (by simp)⟩, fun d hd => h2 d (by simp [hd])⟩

/-- `bestScored` fails exactly when no candidate produces a score. -/
theorem bestScored_eq_none_iff {α : Type} [LinearOrder α]
    (score : AudioDevice → Option α) (l : List AudioDevice) :
    bestScored score l = none ↔ ∀ d ∈ l, score d = none := by
  unfold bestScored
  rw [foldl_bestStep_eq_none_iff]
  simp

/-- Characterization of the fuzzy loop's winner, generalized over the
accumulator: either the winner was already the accumulator and nothing in
the list strictly beats it, or the winner sits in the list, strictly beats
the accumulator and every scored candidate before it, and is not strictly
beaten by any scored candidate after it. -/
theorem foldl_bestStep_eq_some {α : Type} [LinearOrder α]
    (score : AudioDevice → Option α) (l : List AudioDevice) :
    ∀ (acc : Option (α × AudioDevice)) (s : α) (d : AudioDevice),
      l.foldl (bestStep score) acc = some (s, d) →
      (acc = some (s, d) ∧ ∀ x ∈ l, ∀ sx, score x = some sx → sx ≤ s)
      ∨ ((∀ p : α × AudioDevice, acc = some p → p.1 < s)
         ∧ ∃ l₁ l₂, l = l₁ ++ d :: l₂ ∧ score d = some s
           ∧ (∀ x ∈ l₁, ∀ sx, score x = some sx → sx < s)
           ∧ (∀ x ∈ l₂, ∀ sx, score x = some sx → sx ≤ s)) := by
  induction l with
  | nil =>
    intro acc s d h
    simp only [List.foldl_nil] at h
    exact Or.inl ⟨h, by simp⟩
  | cons x xs ih =>
    intro acc s d h
    rw [List.foldl_cons] at h
    rcases ih (bestStep score acc x) s d h with
      ⟨hacc, hle⟩ | ⟨haccLt, l₁, l₂, hsplit, hscd, hpre, hpost⟩
    · cases hx : score x with
      | none =>
        rw [show bestStep score acc x = acc by simp [bestStep, hx]] at hacc
        refine Or.inl ⟨hacc, ?_⟩
        intro y hy sy hsy
        rcases List.mem_cons.mp hy with rfl | hmem
        · rw [hx] at hsy; cases hsy
        · exact hle y hmem sy hsy
      | some sx =>
        cases acc with
        | none =>
          rw [show bestStep score none x = some (sx, x) by simp [bestStep, hx],
            Option.some_inj, Prod.mk.injEq] at hacc
          obtain ⟨rfl, rfl⟩ := hacc
          refine Or.inr ⟨fun p hp => absurd hp (by simp), [], xs, by simp, ?_⟩
          exact ⟨hx, by simp, hle⟩
        | some bm =>
          by_cases hgt : sx > bm.1
          · rw [show bestStep score (some bm) x = some (sx, x) by
                simp [bestStep, hx, hgt], Option.some_inj, Prod.mk.injEq] at hacc
            obtain ⟨rfl, rfl⟩ := hacc
            refine Or.inr ⟨?_, [], xs, by simp, ?_⟩
            · intro p hp
              rw [Option.some_inj] at hp
              exact hp ▸ hgt
            · exact ⟨hx, by simp, hle⟩
          · rw [show bestStep score (some bm) x = some bm by
                simp [bestStep, hx, hgt]] at hacc
            rw [Option.some_inj] at hacc
            refine Or.inl ⟨by rw [hacc], ?_⟩
            intro y hy sy hsy
            rcases List.mem_cons.mp hy with rfl | hmem
            · rw [hx] at hsy
              rw [Option.some_inj] at hsy
              have hb : bm.1 = s := by rw [hacc]
              exact hsy ▸ (hb ▸ not_lt.mp hgt)
            · exact hle y hmem sy hsy
    · cases hx : score x with
      | none =>
        rw [show bestStep score acc x = acc by simp [bestStep, hx]] at haccLt
        refine Or.inr ⟨haccLt, x :: l₁, l₂, (by rw [hsplit, List.cons_append]), hscd, ?_, hpost⟩
        intro y hy sy hsy
        rcases List.mem_cons.mp hy with rfl | hmem
        · rw [hx] at hsy; cases hsy
        · exact hpre y hmem sy hsy
      | some sx =>
        cases acc with
        | none =>
          rw [show bestStep score none x = some (sx, x) by simp [bestStep, hx]] at haccLt
          have hxs : sx < s := haccLt (sx, x) rfl
          refine Or.inr ⟨fun p hp => absurd hp (by simp), x :: l₁, l₂,
            (by rw [hsplit, List.cons_append]), hscd, ?_, hpost⟩
          intro y hy sy hsy
          rcases List.mem_cons.mp hy with rfl | hmem
          · rw [hx, Option.some_inj] at hsy; exact hsy ▸ hxs
          · exact hpre y hmem sy hsy
        | some bm =>
          by_cases hgt : sx > bm.1
          · rw [show bestStep score (some bm) x = some (sx, x) by
                simp [bestStep, hx, hgt]] at haccLt
            have hxs : sx < s := haccLt (sx, x) rfl
            refine Or.inr ⟨?_, x :: l₁, l₂, (by rw [hsplit, List.cons_append]), hscd, ?_, hpost⟩
            · intro p hp
              rw [Option.some_inj] at hp
              exact hp ▸ lt_trans hgt hxs
            · intro y hy sy hsy
              rcases List.mem_cons.mp hy with rfl | hmem
              · rw [hx, Option.some_inj] at hsy; exact hsy ▸ hxs
              · exact hpre y hmem sy hsy
          · rw [show bestStep score (some bm) x = some bm by
                simp [bestStep, hx, hgt]] at haccLt
            have hbs : bm.1 < s := haccLt bm rfl
            refine Or.inr ⟨fun p hp => (by rw [Option.some_inj] at hp; exact hp ▸ hbs),
              x :: l₁, l₂, (by rw [hsplit, List.cons_append]), hscd, ?_, hpost⟩
            intro y hy sy hsy
            rcases List.mem_cons.mp hy with rfl | hmem
            · rw [hx, Option.some_inj] at hsy
              exact hsy ▸ lt_of_le_of_lt (not_lt.mp hgt) hbs
            · exact hpre y hmem sy hsy

/-- The winner of `bestScored` scores `s`, strictly beats every scored
candidate before it, and is not strictly beaten by any scored candidate
after it. -/
theorem bestScored_eq_some {α : Type} [LinearOrder α]
    (score : AudioDevice → Option α) (l : List AudioDevice)
    (s : α) (d : AudioDevice) (h : bestScored score l = some (s, d)) :
    ∃ l₁ l₂, l = l₁ ++ d :: l₂ ∧ score d = some s
      ∧ (∀ x ∈ l₁, ∀ sx, score x = some sx → sx < s)
      ∧ (∀ x ∈ l₂, ∀ sx, score x = some sx → sx ≤ s) := by
  rcases foldl_bestStep_eq_some score l none s d h with ⟨hacc, _⟩ | ⟨_, hrest⟩
  · cases hacc
  · exact hrest

/-! ### Claims about the matcher / switch pipeline -/

/-- C1: in exact-match mode (`fuzzy_match = false`), if some candidate's name
equals the target byte-for-byte, `find_and_set_output_device` selects the
first such candidate, invokes the commit collaborator with exactly that
device's id, and on commit success returns `Ok` with that device's name; if
no candidate's name equals the target it returns the no-exact-match error
and the commit collaborator is never invoked. -/
theorem exact_mode_switch_correct
    (score : String → String → Option Int) (commit : String → Except String Unit)
    (target : String) (devices : List AudioDevice) (config : Config)
    (hmode : config.fuzzy_match = false) :
    ((∀ d ∈ devices, d.name ≠ target) →
      find_and_set_output_device score commit target devices config
        = (.error (.noExactMatch target), []))
    ∧ (∀ l₁ d l₂, devices = l₁ ++ d :: l₂ → (∀ x ∈ l₁, x.name ≠ target) →
        d.name = target →
        (find_and_set_output_device score commit target devices config).2 = [d.id]
        ∧ (commit d.id = .ok () →
            find_and_set_output_device score commit target devices config
              = (.ok d.name, [d.id]))) := by
  constructor
  · intro hnone
    have hfind : devices.find? (fun d => d.name == target) = none := by
      rw [List.find?_eq_none]
      intro x hx
      simp only [beq_iff_eq]
      exact hnone x hx
    simp [find_and_set_output_device, hmode, hfind]
  · intro l₁ d l₂ hsplit hpre hd
    have hfind : devices.find? (fun d => d.name == target) = some d := by
      rw [hsplit]
      apply find?_first
      · intro x hx
        simp only [beq_eq_false_iff_ne]
        exact hpre x hx
      · simp [hd]
    refine ⟨?_, ?_⟩
    · simp only [find_and_set_output_device, hmode, Bool.false_eq_true, if_false, hfind]
      cases hc : commit d.id <;> simp [hc]
    · intro hok
      simp [find_and_set_output_device, hmode, hfind, hok]

/-- Witness for C1 at a concrete input: two candidates named "B"; the first
one (id "id2") is selected and committed, its name is returned. -/
theorem exact_mode_switch_correct_witness :
    find_and_set_output_device (fun _ _ => none) (fun _ => Except.ok ())
      "B" [⟨"id1", "A"⟩, ⟨"id2", "B"⟩, ⟨"id3", "B"⟩] ⟨false, []⟩
      = (.ok "B", ["id2"]) := by
  have h := (exact_mode_switch_correct (fun _ _ => none) (fun _ => Except.ok ())
      "B" [⟨"id1", "A"⟩, ⟨"id2", "B"⟩, ⟨"id3", "B"⟩] ⟨false, []⟩ rfl).2
      [⟨"id1", "A"⟩] ⟨"id2", "B"⟩ [⟨"id3", "B"⟩] rfl (by decide) rfl
  exact h.2 rfl

/-- C2: in fuzzy mode (`fuzzy_match = true`) with the skim scorer abstracted
as an oracle, the resolver fails (with no commit) exactly when no candidate
produces a score; any winner carries its own score, strictly beats every
scored candidate at an earlier index, is not strictly beaten by any scored
candidate at a later index, and is the device whose id is committed; and the
resolution is deterministic. -/
theorem fuzzy_mode_resolver_correct
    (score : String → String → Option Int) (commit : String → Except String Unit)
    (target : String) (devices : List AudioDevice) (config : Config)
    (hmode : config.fuzzy_match = true) :
    ((∀ d ∈ devices, score d.name target = none) →
      find_and_set_output_device score commit target devices config
        = (.error (.noFuzzyMatch target), []))
    ∧ (∀ d ∈ devices, ∀ sd, score d.name target = some sd →
        bestScored (fun d => score d.name target) devices ≠ none)
    ∧ (∀ s d, bestScored (fun d => score d.name target) devices = some (s, d) →
        score d.name target = some s
        ∧ (∃ l₁ l₂, devices = l₁ ++ d :: l₂
            ∧ (∀ x ∈ l₁, ∀ sx, score x.name target = some sx → sx < s)
            ∧ (∀ x ∈ l₂, ∀ sx, score x.name target = some sx → sx ≤ s))
        ∧ (find_and_set_output_device score commit target devices config).2 = [d.id]
        ∧ (commit d.id = .ok () →
            find_and_set_output_device score commit target devices config
              = (.ok d.name, [d.id])))
    ∧ find_and_set_output_device score commit target devices config
        = find_and_set_output_device score commit target devices config := by
  refine ⟨?_, ?_, ?_, rfl⟩
  · intro hnone
    have hb : bestScored (fun d => score d.name target) devices = none :=
      (bestScored_eq_none_iff _ _).mpr hnone
    simp [find_and_set_output_device, hmode, hb]
  · intro d hd sd hsd hb
    rw [bestScored_eq_none_iff] at hb
    rw [hb d hd] at hsd
    cases hsd
  · intro s d hb
    obtain ⟨l₁, l₂, hsplit, hscd, hpre, hpost⟩ :=
      bestScored_eq_some (fun d => score d.name target) devices s d hb
    refine ⟨hscd, ⟨l₁, l₂, hsplit, hpre, hpost⟩, ?_, ?_⟩
    · simp only [find_and_set_output_device, hmode, if_true, hb]
      cases hc : commit d.id <;> simp [hc]
    · intro hok
      simp [find_and_set_output_device, hmode, hb, hok]

/-- Witness for C2 at a concrete input: score is string length of the
candidate name; "bbb" and "ccc" tie at 3, the earlier-indexed "bbb" wins
and is committed. -/
theorem fuzzy_mode_resolver_correct_witness :
    find_and_set_output_device (fun name _ => some (Int.ofNat name.length))
      (fun _ => Except.ok ()) "x"
      [⟨"i1", "aa"⟩, ⟨"i2", "bbb"⟩, ⟨"i3", "ccc"⟩] ⟨true, []⟩
      = (.ok "bbb", ["i2"]) := by
  have h := ((fuzzy_mode_resolver_correct (fun name _ => some (Int.ofNat name.length))
      (fun _ => Except.ok ()) "x"
      [⟨"i1", "aa"⟩, ⟨"i2", "bbb"⟩, ⟨"i3", "ccc"⟩] ⟨true, []⟩ rfl).2.2.1
      3 ⟨"i2", "bbb"⟩ (by decide)).2.2.2
  exact h rfl

/-! ### Levenshtein matching mode (spec §4.2), absent from the source snapshot -/

/-- Modelled from the spec: the Levenshtein branch of the Matcher is not in
the source snapshot (`src/main.rs` only has the exact and skim branches);
spec §4.2 says it lower-cases both strings first. -/
def lowercase (s : String) : String := ⟨s.data.map Char.toLower⟩

/-- Helper for the structural recursion of `levDist`: the distance function
of `a :: as` expressed through the distance function `f` of `as`. -/
def levNext (a : Char) (as : List Char) (f : List Char → Nat) : List Char → Nat
  | [] => as.length + 1
  | b :: bs => if a = b then f bs
      else 1 + min (f bs) (min (levNext a as f bs) (f (b :: bs)))

/-- Modelled from the spec: edit distance used by the missing Levenshtein
matcher branch (spec §4.2), the standard unit-cost Levenshtein distance,
phrased as a structural recursion so that it computes by reduction. -/
def levDist : List Char → List Char → Nat
  | [] => fun bs => bs.length
  | a :: as => levNext a as (levDist as)

theorem levDist_nil (bs : List Char) : levDist [] bs = bs.length := rfl

theorem levDist_cons_nil (a : Char) (as : List Char) :
    levDist (a :: as) [] = (a :: as).length := by
  simp [levDist, levNext]

/-- The usual defining equation of the Levenshtein distance in the
cons-cons case. -/
theorem levDist_cons_cons (a : Char) (as : List Char) (b : Char) (bs : List Char) :
    levDist (a :: as) (b :: bs)
      = if a = b then levDist as bs
        else 1 + min (levDist as bs)
            (min (levDist (a :: as) bs) (levDist as (b :: bs))) := rfl

/-- Modelled from the spec: normalized similarity in `[0,1]` (1 = identical)
computed by the missing Levenshtein matcher branch (spec §4.2). -/
def levSimilarity (a b : List Char) : ℚ :=
  let m := max a.length b.length
  if m = 0 then 1 else 1 - (levDist a b : ℚ) / (m : ℚ)

/-- Modelled from the spec: the per-candidate score of the missing
Levenshtein matcher branch — similarity of the lower-cased target and the
lower-cased candidate name (spec §4.2). -/
def levScore (target : String) (d : AudioDevice) : ℚ :=
  levSimilarity (lowercase target).data (lowercase d.name).data

/-- Modelled from the spec: the missing Levenshtein resolver (spec §4.2) —
score every candidate, keep the maximum (ties keep first-seen, via the same
best-candidate loop the skim branch uses), accept the winner only if its
similarity is at least `threshold`. -/
def levResolve (threshold : ℚ) (target : String) (devices : List AudioDevice) :
    Option AudioDevice :=
  match bestScored (fun d => some (levScore target d)) devices with
  | some sd => if sd.1 ≥ threshold then some sd.2 else none
  | none => none

/-- The Levenshtein distance is at most the length of the longer word. -/
theorem levDist_le_max : ∀ a b : List Char, levDist a b ≤ max a.length b.length := by
  intro a
  induction a with
  | nil => intro b; simp [levDist_nil]
  | cons a as iha =>
    intro b
    induction b with
    | nil => simp [levDist_cons_nil]
    | cons b bs ihb =>
      rw [levDist_cons_cons]
      by_cases hab : a = b
      · rw [if_pos hab]
        have h := iha bs
        simp only [List.length_cons]
        rw [max_add_add_right]
        omega
      · rw [if_neg hab]
        have h1 := iha bs
        have h2 : min (levDist as bs) (min (levDist (a :: as) bs) (levDist as (b :: bs)))
            ≤ levDist as bs := min_le_left _ _
        simp only [List.length_cons]
        rw [max_add_add_right]
        omega

/-- The normalized similarity lies in `[0,1]`. -/
theorem levSimilarity_mem_unit (a b : List Char) :
    0 ≤ levSimilarity a b ∧ levSimilarity a b ≤ 1 := by
  unfold levSimilarity
  by_cases hm : max a.length b.length = 0
  · simp [hm]
  · simp only [hm, if_false]
    have hd : (levDist a b : ℚ) ≤ ((max a.length b.length : ℕ) : ℚ) := by
      exact_mod_cast levDist_le_max a b
    have hmpos : (0 : ℚ) < ((max a.length b.length : ℕ) : ℚ) := by
      exact_mod_cast Nat.pos_of_ne_zero hm
    constructor
    · have hle : (levDist a b : ℚ) / ((max a.length b.length : ℕ) : ℚ) ≤ 1 :=
        (div_le_one hmpos).mpr hd
      linarith
    · have hnn : (0 : ℚ) ≤ (levDist a b : ℚ) / ((max a.length b.length : ℕ) : ℚ) :=
        div_nonneg (by positivity) (le_of_lt hmpos)
      linarith

/-- C3: in the (spec-modelled) Levenshtein mode the similarity of every
candidate lies in `[0,1]`; the resolver picks the earliest candidate of
maximal similarity and accepts it exactly when its similarity is at least
the threshold (equality included), returning `none` otherwise or when there
is no candidate; and the result is invariant under case changes of the
target, while a candidate's score is invariant under case changes of its
name. -/
theorem levenshtein_mode_correct (threshold : ℚ) (target : String)
    (devices : List AudioDevice) :
    (∀ a b : List Char, 0 ≤ levSimilarity a b ∧ levSimilarity a b ≤ 1)
    ∧ (devices = [] → levResolve threshold target devices = none)
    ∧ (∀ s d, bestScored (fun d => some (levScore target d)) devices = some (s, d) →
        levScore target d = s
        ∧ (∃ l₁ l₂, devices = l₁ ++ d :: l₂
            ∧ (∀ x ∈ l₁, levScore target x < s)
            ∧ (∀ x ∈ l₂, levScore target x ≤ s))
        ∧ (threshold ≤ s → levResolve threshold target devices = some d)
        ∧ (s < threshold → levResolve threshold target devices = none))
    ∧ (∀ t₂, lowercase target = lowercase t₂ →
        levResolve threshold target devices = levResolve threshold t₂ devices)
    ∧ (∀ d₁ d₂ : AudioDevice, lowercase d₁.name = lowercase d₂.name →
        levScore target d₁ = levScore target d₂) := by
  refine ⟨levSimilarity_mem_unit, ?_, ?_, ?_, ?_⟩
  · rintro rfl
    simp [levResolve, bestScored]
  · intro s d hb
    obtain ⟨l₁, l₂, hsplit, hscd, hpre, hpost⟩ :=
      bestScored_eq_some (fun d => some (levScore target d)) devices s d hb
    rw [Option.some_inj] at hscd
    refine ⟨hscd, ⟨l₁, l₂, hsplit, ?_, ?_⟩, ?_, ?_⟩
    · exact fun x hx => hpre x hx (levScore target x) rfl
    · exact fun x hx => hpost x hx (levScore target x) rfl
    · intro hth
      simp [levResolve, hb, hth]
    · intro hth
      simp [levResolve, hb, not_le.mpr hth]
  · intro t₂ hcase
    have hsc : ∀ d, levScore target d = levScore t₂ d := by
      intro d
      unfold levScore
      rw [hcase]
    unfold levResolve
    rw [funext fun d => congrArg some (hsc d)]
  · intro d₁ d₂ hcase
    unfold levScore
    rw [hcase]

/-- Witness for C3 at the exact threshold boundary: the threshold is chosen
equal to the winner's similarity, and the candidate is accepted. -/
theorem levenshtein_mode_correct_witness :
    levResolve (levScore "ab" ⟨"i1", "aa"⟩) "ab" [⟨"i1", "aa"⟩]
      = some ⟨"i1", "aa"⟩ := by
  have h := ((levenshtein_mode_correct (levScore "ab" ⟨"i1", "aa"⟩) "ab"
      [⟨"i1", "aa"⟩]).2.2.1 (levScore "ab" ⟨"i1", "aa"⟩) ⟨"i1", "aa"⟩ rfl).2.2.1
  exact h (le_refl _)

/-! ### Hotkey listener thread (`hotkey_listener_thread`, src/main.rs) -/

/-- Embedding of `global_hotkey::HotKeyState` as used in `src/main.rs`. -/
inductive HotKeyState where
  | pressed
  | released
deriving DecidableEq, Repr

/-- Embedding of `GlobalHotKeyEvent`: an id and a state. -/
structure GlobalHotKeyEvent where
  id : Nat
  state : HotKeyState
deriving DecidableEq, Repr

/-- Which device kind a commit call targets. -/
inductive DeviceKind where
  | output
  | input
deriving DecidableEq, Repr

/-- Severity of a log line. -/
inductive LogLevel where
  | info
  | warn
  | error
deriving DecidableEq, Repr

/-- Log lines of the listener thread, one constructor per `info!`/`warn!`/
`error!` call site of `src/main.rs` that the claims mention; the payloads
are the formatted data. -/
inductive LogEntry where
  | hotkeyPressed (id : Nat)
  | setOutputOk (name : String)
  | setOutputFailed (e : SwitchError)
  | setInputOk (name : String)
  | setInputFailed (e : SwitchError)
  | unknownHotkeyId (id : Nat)
  | shutdownReceived
  | unregisteringHotkeys
  | unregisterFailed (cause : String)
  | unregisteredOk
deriving DecidableEq, Repr

/-- Severity each log line is emitted at in the source. -/
def LogEntry.level : LogEntry → LogLevel
  | .hotkeyPressed _ => .info
  | .setOutputOk _ => .info
  | .setOutputFailed _ => .error
  | .setInputOk _ => .info
  | .setInputFailed _ => .error
  | .unknownHotkeyId _ => .warn
  | .shutdownReceived => .info
  | .unregisteringHotkeys => .info
  | .unregisterFailed _ => .error
  | .unregisteredOk => .info

/-- The immutable data of the running listener: the oracles (skim scorer and
the two commit collaborators), the binding table, the two device snapshots
and the configuration. -/
structure ListenerEnv where
  score : String → String → Option Int
  commitOutput : String → Except String Unit
  commitInput : String → Except String Unit
  hotkey_device_map : List (Nat × HotkeyMapping)
  available_output_devices : List AudioDevice
  available_input_devices : List AudioDevice
  config : Config

/-- Embedding of the hotkey-event handling inside the poll loop
(`src/main.rs` lines 140-165): on a pressed event for a known id, run the
output switch pipeline, then the input pipeline if an input name is
configured; on an unknown id, only warn.  Returns the log lines, the
channel messages sent, and the commit calls made, in order. -/
def processHotkeyEvent (env : ListenerEnv) (event : GlobalHotKeyEvent) :
    List LogEntry × List AppMessage × List (DeviceKind × String) :=
  if event.state = HotKeyState.pressed then
    match env.hotkey_device_map.lookup event.id with
    | some mapping =>
      let outRes := find_and_set_output_device env.score env.commitOutput
          mapping.device_name env.available_output_devices env.config
      let outLog : LogEntry := match outRes.1 with
        | .ok name => .setOutputOk name
        | .error e => .setOutputFailed e
      match mapping.input_device_name with
      | some input_device_name =>
        let inRes := find_and_set_input_device env.score env.commitInput
            input_device_name env.available_input_devices env.config
        let inLog : LogEntry := match inRes.1 with
          | .ok name => .setInputOk name
          | .error e => .setInputFailed e
        ([.hotkeyPressed event.id, outLog, inLog], [],
          outRes.2.map (fun i => (DeviceKind.output, i))
            ++ inRes.2.map (fun i => (DeviceKind.input, i)))
      | none =>
        ([.hotkeyPressed event.id, outLog], [],
          outRes.2.map (fun i => (DeviceKind.output, i)))
    | none => ([.unknownHotkeyId event.id], [], [])
  else ([], [], [])

/-- Observable outcome of one iteration of the listener poll loop. -/
structure IterResult where
  logs : List LogEntry
  msgs : List AppMessage
  commits : List (DeviceKind × String)
  processedEvent : Option GlobalHotKeyEvent
  dispatchedNative : Bool
  queueAfter : List GlobalHotKeyEvent
  nativeAfter : List Unit
  breaks : Bool
  slept : Bool

/-- Embedding of one iteration of the listener poll loop (`src/main.rs`
lines 136-189).  `queue` is the pending hotkey-event channel (`try_recv`
takes the head; the later `receiver.is_empty()` check sees the remainder),
`native` the pending Win32 message queue (`PeekMessageW`/`PM_REMOVE` takes
one message), `shutdown` the value `shutdown_signal.load()` reads in this
iteration.  The shutdown `break` happens after the event check and the
message dispatch and before the sleep; the sleep is taken when no native
message was handled and the hotkey channel is empty at that point. -/
def listenerLoopIter (env : ListenerEnv) (shutdown : Bool)
    (queue : List GlobalHotKeyEvent) (native : List Unit) : IterResult :=
  let processed : Option GlobalHotKeyEvent := queue.head?
  let queueRest := queue.tail
  let acts := match processed with
    | some e => processHotkeyEvent env e
    | none => ([], [], [])
  let message_handled := !native.isEmpty
  let nativeRest := native.tail
  if shutdown then
    { logs := acts.1 ++ [.shutdownReceived], msgs := acts.2.1, commits := acts.2.2,
      processedEvent := processed, dispatchedNative := message_handled,
      queueAfter := queueRest, nativeAfter := nativeRest,
      breaks := true, slept := false }
  else
    { logs := acts.1, msgs := acts.2.1, commits := acts.2.2,
      processedEvent := processed, dispatchedNative := message_handled,
      queueAfter := queueRest, nativeAfter := nativeRest,
      breaks := false, slept := !message_handled && queueRest.isEmpty }

/-- Oracles of the listener startup phase, in the order the source consults
them: COM initialization, `GlobalHotKeyManager::new`, `register_hotkeys`
(returning the binding table and the registered hotkey handles, here their
ids), then output and input device enumeration. -/
structure StartupOracles where
  comInit : Except String Unit
  managerNew : Except String Unit
  registerHotkeys : Except String (List (Nat × HotkeyMapping) × List Nat)
  listOutput : Except String (List AudioDevice)
  listInput : Except String (List AudioDevice)

/-- Whether startup reached the poll loop, and with what data. -/
inductive StartupOutcome where
  | stopped
  | running (map : List (Nat × HotkeyMapping)) (hotkeys : List Nat)
      (outs ins : List AudioDevice)

/-- Observable outcome of the listener startup phase: the channel messages
sent, whether OS hotkey registrations exist when the phase ends, and
whether the loop was reached. -/
structure StartupResult where
  msgs : List AppMessage
  registered : Bool
  outcome : StartupOutcome

/-- Embedding of the startup phase of `hotkey_listener_thread`
(`src/main.rs` lines 39-133), up to entering the poll loop.  Each failure
sends one error message and returns; note the source registers hotkeys
(step 2) before it enumerates devices (step 4), and the early-return paths
never call `unregister_all`, so on an enumeration failure the registrations
remain in place. -/
def listenerStartup (o : StartupOracles) : StartupResult :=
  match o.comInit with
  | .error e =>
    { msgs := [.hotkeyError ("Hotkey thread failed to initialize COM (MTA): " ++ e)],
      registered := false, outcome := .stopped }
  | .ok _ =>
    match o.managerNew with
    | .error e =>
      { msgs := [.hotkeyError ("Failed to create GlobalHotKeyManager: " ++ e)],
        registered := false, outcome := .stopped }
    | .ok _ =>
      match o.registerHotkeys with
      | .error e =>
        { msgs := [.hotkeyError ("Failed to register hotkeys: " ++ e)],
          registered := false, outcome := .stopped }
      | .ok mk =>
        match o.listOutput with
        | .error e =>
          { msgs := [.hotkeyError ("Failed to list audio output devices: " ++ e)],
            registered := true, outcome := .stopped }
        | .ok outs =>
          match o.listInput with
          | .error e =>
            { msgs := [.hotkeyError ("Failed to list audio input devices: " ++ e)],
              registered := true, outcome := .stopped }
          | .ok ins =>
            { msgs := [], registered := true, outcome := .running mk.1 mk.2 outs ins }

/-- Observable outcome of the post-loop cleanup. -/
structure DrainResult where
  logs : List LogEntry
  msgs : List AppMessage
  unregisterCalls : List (List Nat)
  returned : Bool

/-- Embedding of the cleanup after the poll loop (`src/main.rs` lines
191-207): `unregister_all(&hotkeys)` is called exactly once with the full
startup hotkey list; a failure is logged and reported on the channel; in
every case the thread goes on to uninitialize COM and return. -/
def listenerDrain (unregister_all : List Nat → Except String Unit)
    (hotkeys : List Nat) : DrainResult :=
  match unregister_all hotkeys with
  | .ok _ =>
    { logs := [.unregisteringHotkeys, .unregisteredOk], msgs := [],
      unregisterCalls := [hotkeys], returned := true }
  | .error e =>
    { logs := [.unregisteringHotkeys, .unregisterFailed e],
      msgs := [.hotkeyError ("Failed to unregister hotkeys: " ++ e)],
      unregisterCalls := [hotkeys], returned := true }

/-! ### Claims about the listener thread -/

/-- C4 counterexample: with COM init, manager creation and hotkey
registration succeeding, an output-device enumeration failure makes the
listener stop after sending exactly one error message — but a hotkey HAS
already been registered at that moment and stays registered, refuting the
claim that no hotkey registration has been performed. -/
theorem device_enum_failure_counterexample :
    (listenerStartup
        { comInit := .ok (), managerNew := .ok (),
          registerHotkeys := .ok ([(7, ⟨"Ctrl+Alt+1", "Headphones", none⟩)], [7]),
          listOutput := .error "enumeration failed",
          listInput := .ok [] }).registered = true
    ∧ (listenerStartup
        { comInit := .ok (), managerNew := .ok (),
          registerHotkeys := .ok ([(7, ⟨"Ctrl+Alt+1", "Headphones", none⟩)], [7]),
          listOutput := .error "enumeration failed",
          listInput := .ok [] }).msgs
      = [.hotkeyError "Failed to list audio output devices: enumeration failed"] :=
  ⟨rfl, rfl⟩

/-- C4 (amended): if device enumeration (output or input) fails when the
listener starts, the listener sends exactly one error message and
terminates without entering the loop — but hotkey registration has already
been performed before the enumeration, and the failure path leaves those
hotkeys registered (no unregistration happens). -/
theorem device_enum_failure_amended (o : StartupOracles)
    (hcom : o.comInit = .ok ()) (hmgr : o.managerNew = .ok ())
    (mk : List (Nat × HotkeyMapping) × List Nat)
    (hreg : o.registerHotkeys = .ok mk) :
    (∀ e, o.listOutput = .error e →
      listenerStartup o
        = { msgs := [.hotkeyError ("Failed to list audio output devices: " ++ e)],
            registered := true, outcome := .stopped })
    ∧ (∀ outs e, o.listOutput = .ok outs → o.listInput = .error e →
      listenerStartup o
        = { msgs := [.hotkeyError ("Failed to list audio input devices: " ++ e)],
            registered := true, outcome := .stopped }) := by
  constructor
  · intro e hout
    simp [listenerStartup, hcom, hmgr, hreg, hout]
  · intro outs e hout hin
    simp [listenerStartup, hcom, hmgr, hreg, hout, hin]

/-- Witness for the amended C4 at concrete oracles. -/
theorem device_enum_failure_amended_witness :
    listenerStartup
        { comInit := .ok (), managerNew := .ok (),
          registerHotkeys := .ok ([(7, ⟨"Ctrl+Alt+1", "Headphones", none⟩)], [7]),
          listOutput := .ok [], listInput := .error "no input devices" }
      = { msgs := [.hotkeyError "Failed to list audio input devices: no input devices"],
          registered := true, outcome := .stopped } :=
  (device_enum_failure_amended
      { comInit := .ok (), managerNew := .ok (),
        registerHotkeys := .ok ([(7, ⟨"Ctrl+Alt+1", "Headphones", none⟩)], [7]),
        listOutput := .ok [], listInput := .error "no input devices" }
      rfl rfl ([(7, ⟨"Ctrl+Alt+1", "Headphones", none⟩)], [7]) rfl).2
    [] "no input devices" rfl rfl

/-- A concrete listener environment used by counterexamples and witnesses:
exact matching, one binding (id 1 → output "Out", input "In"), no output
devices, one input device whose commit succeeds. -/
def sampleEnv : ListenerEnv :=
  { score := fun _ _ => none
    commitOutput := fun _ => .ok ()
    commitInput := fun _ => .ok ()
    hotkey_device_map := [(1, ⟨"Ctrl+Alt+1", "Out", some "In"⟩)]
    available_output_devices := []
    available_input_devices := [⟨"mic-id", "In"⟩]
    config := ⟨false, []⟩ }

/-- C5 counterexample: on a known binding whose output switch fails, the
listener logs the failure and still attempts (and here completes) the input
switch — but it sends NO message at all to the coordinator, refuting the
claim that the failure is reported as an `AppMessage::Error`. -/
theorem switch_failure_not_reported_counterexample :
    processHotkeyEvent sampleEnv ⟨1, .pressed⟩
      = ([.hotkeyPressed 1, .setOutputFailed (.noExactMatch "Out"), .setInputOk "In"],
         [], [(.input, "mic-id")]) := rfl

/-- C5 (amended): on a pressed event for a known binding, a switch failure
is logged at error level but is NOT sent to the coordinator (event handling
sends no channel message at all); it never breaks the poll loop; and when
an input device name is configured, the input pipeline runs and its commit
calls happen regardless of the output pipeline's outcome. -/
theorem switch_failure_nonfatal_amended (env : ListenerEnv) (id : Nat)
    (mapping : HotkeyMapping) (rest : List GlobalHotKeyEvent) (native : List Unit)
    (hid : env.hotkey_device_map.lookup id = some mapping) :
    (processHotkeyEvent env ⟨id, .pressed⟩).2.1 = []
    ∧ (listenerLoopIter env false (⟨id, .pressed⟩ :: rest) native).breaks = false
    ∧ (∀ iname, mapping.input_device_name = some iname →
        (processHotkeyEvent env ⟨id, .pressed⟩).1
          = [.hotkeyPressed id,
             (match (find_and_set_output_device env.score env.commitOutput
                 mapping.device_name env.available_output_devices env.config).1 with
              | .ok n => .setOutputOk n
              | .error e => .setOutputFailed e),
             (match (find_and_set_input_device env.score env.commitInput iname
                 env.available_input_devices env.config).1 with
              | .ok n => .setInputOk n
              | .error e => .setInputFailed e)]
        ∧ (processHotkeyEvent env ⟨id, .pressed⟩).2.2
          = (find_and_set_output_device env.score env.commitOutput mapping.device_name
              env.available_output_devices env.config).2.map
                (fun i => (DeviceKind.output, i))
            ++ (find_and_set_input_device env.score env.commitInput iname
                env.available_input_devices env.config).2.map
                  (fun i => (DeviceKind.input, i)))
    ∧ (∀ e, (LogEntry.setOutputFailed e).level = .error
        ∧ (LogEntry.setInputFailed e).level = .error) := by
  refine ⟨?_, ?_, ?_, fun e => ⟨rfl, rfl⟩⟩
  · cases hm : mapping.input_device_name <;>
      simp [processHotkeyEvent, hid, hm]
  · simp [listenerLoopIter]
  · intro iname hm
    constructor <;> simp [processHotkeyEvent, hid, hm]

/-- Witness for the amended C5 at the concrete environment. -/
theorem switch_failure_nonfatal_amended_witness :
    (processHotkeyEvent sampleEnv ⟨1, .pressed⟩).2.1 = [] :=
  (switch_failure_nonfatal_amended sampleEnv 1 ⟨"Ctrl+Alt+1", "Out", some "In"⟩
    [] [] rfl).1

/-- C6 counterexample: an iteration that processes the only pending hotkey
event (and dispatches no native message) still enters the sleep, because
the source's sleep condition re-checks the (now empty) hotkey channel
instead of remembering that an event was processed — refuting the claim
that the sleep is never entered in an iteration that processed an event. -/
theorem sleep_after_event_counterexample :
    (listenerLoopIter sampleEnv false [⟨1, .pressed⟩] []).processedEvent
        = some ⟨1, .pressed⟩
    ∧ (listenerLoopIter sampleEnv false [⟨1, .pressed⟩] []).slept = true :=
  ⟨rfl, rfl⟩

/-- C6 (amended): the bounded sleep is entered exactly when no native
message was dispatched and the hotkey queue is empty AFTER this iteration's
event check (and the loop did not break on shutdown).  A native dispatch or
a still-pending hotkey event prevents the sleep, but an iteration that
processed the last pending hotkey event does sleep. -/
theorem sleep_condition_amended (env : ListenerEnv) (shutdown : Bool)
    (queue : List GlobalHotKeyEvent) (native : List Unit) :
    ((listenerLoopIter env shutdown queue native).dispatchedNative = true →
      (listenerLoopIter env shutdown queue native).slept = false)
    ∧ (shutdown = true → (listenerLoopIter env shutdown queue native).slept = false)
    ∧ (shutdown = false →
        (listenerLoopIter env shutdown queue native).slept
          = (!(listenerLoopIter env shutdown queue native).dispatchedNative
              && (listenerLoopIter env shutdown queue native).queueAfter.isEmpty)) := by
  cases shutdown <;> cases native <;> simp [listenerLoopIter]

/-- Witness for the amended C6: with the shutdown flag set the iteration
never sleeps. -/
theorem sleep_condition_amended_witness :
    (listenerLoopIter sampleEnv true [] []).slept = false :=
  (sleep_condition_amended sampleEnv true [] []).2.1 rfl

/-- C7: when the shutdown flag reads true, the iteration breaks out of the
poll loop without sleeping; the drain then calls `unregister_all` exactly
once with the full startup hotkey list, reports a failure both in the log
and on the channel instead of swallowing it or aborting, and in every case
the thread function still runs to completion. -/
theorem shutdown_exit_and_drain (env : ListenerEnv)
    (queue : List GlobalHotKeyEvent) (native : List Unit)
    (unregister_all : List Nat → Except String Unit) (hotkeys : List Nat) :
    (listenerLoopIter env true queue native).breaks = true
    ∧ (listenerLoopIter env true queue native).slept = false
    ∧ (listenerDrain unregister_all hotkeys).unregisterCalls = [hotkeys]
    ∧ (listenerDrain unregister_all hotkeys).returned = true
    ∧ (∀ e, unregister_all hotkeys = .error e →
        (listenerDrain unregister_all hotkeys).msgs
            = [.hotkeyError ("Failed to unregister hotkeys: " ++ e)]
          ∧ .unregisterFailed e ∈ (listenerDrain unregister_all hotkeys).logs) := by
  refine ⟨by simp [listenerLoopIter], by simp [listenerLoopIter], ?_, ?_, ?_⟩
  · cases hu : unregister_all hotkeys <;> simp [listenerDrain, hu]
  · cases hu : unregister_all hotkeys <;> simp [listenerDrain, hu]
  · intro e hu
    simp [listenerDrain, hu]

/-- Witness for C7 at a failing unregistration oracle. -/
theorem shutdown_exit_and_drain_witness :
    (listenerDrain (fun _ => .error "unreg failed") [7]).msgs
      = [.hotkeyError "Failed to unregister hotkeys: unreg failed"]
    ∧ LogEntry.unregisterFailed "unreg failed"
        ∈ (listenerDrain (fun _ => .error "unreg failed") [7]).logs :=
  (shutdown_exit_and_drain sampleEnv [] [] (fun _ => .error "unreg failed")
    [7]).2.2.2.2 "unreg failed" rfl

/-- C8: a pressed event for an id absent from the binding table produces
exactly one warning log line and is dropped: no commit call, no channel
message, and the iteration neither breaks nor changes anything beyond
consuming that event from the queue. -/
theorem unknown_hotkey_id_dropped (env : ListenerEnv) (id : Nat)
    (rest : List GlobalHotKeyEvent) (native : List Unit)
    (hid : env.hotkey_device_map.lookup id = none) :
    processHotkeyEvent env ⟨id, .pressed⟩ = ([.unknownHotkeyId id], [], [])
    ∧ (LogEntry.unknownHotkeyId id).level = .warn
    ∧ (listenerLoopIter env false (⟨id, .pressed⟩ :: rest) native).breaks = false
    ∧ (listenerLoopIter env false (⟨id, .pressed⟩ :: rest) native).msgs = []
    ∧ (listenerLoopIter env false (⟨id, .pressed⟩ :: rest) native).commits = []
    ∧ (listenerLoopIter env false (⟨id, .pressed⟩ :: rest) native).queueAfter = rest := by
  refine ⟨by simp [processHotkeyEvent, hid], rfl, ?_, ?_, ?_, ?_⟩ <;>
    simp [listenerLoopIter, processHotkeyEvent, hid]

/-- Witness for C8: id 2 is not bound in the concrete environment. -/
theorem unknown_hotkey_id_dropped_witness :
    processHotkeyEvent sampleEnv ⟨2, .pressed⟩ = ([.unknownHotkeyId 2], [], []) :=
  (unknown_hotkey_id_dropped sampleEnv 2 [] [] rfl).1

/-! ### Coordinator (`run_tray_app`, src/main.rs) -/

/-- Result of one `try_recv` poll of the coordinator's channel. -/
inductive TryRecvResult where
  | msg (m : AppMessage)
  | empty
  | disconnected
deriving DecidableEq, Repr

/-- Log lines of the coordinator loop and shutdown sequence. -/
inductive CoordLog where
  | errorFromHotkeyThread (s : String)
  | quitReceived
  | channelDisconnected
  | shutdownDetected
  | joinOk
  | joinFailed
deriving DecidableEq, Repr

/-- Embedding of the coordinator's polling loop (`src/main.rs` lines
529-562) over a finite trace of `try_recv` results, threading the shutdown
flag (the disconnect arm stores `true` before breaking; the post-sleep
check breaks if the flag is set).  Returns the logs, the values stored to
the flag during the loop, and `some flagAtExit` when the loop exited within
the trace (`none` when the trace ran out with the loop still polling). -/
def coordLoop (flag : Bool) :
    List TryRecvResult → List CoordLog × List Bool × Option Bool
  | [] => ([], [], none)
  | r :: rest =>
    match r with
    | .msg (.hotkeyError s) =>
      if flag then ([.errorFromHotkeyThread s, .shutdownDetected], [], some flag)
      else
        let t := coordLoop flag rest
        (.errorFromHotkeyThread s :: t.1, t.2.1, t.2.2)
    | .msg .quit => ([.quitReceived], [], some flag)
    | .empty =>
      if flag then ([.shutdownDetected], [], some flag)
      else coordLoop flag rest
    | .disconnected => ([.channelDisconnected], [true], some true)

/-- Observable outcome of `run_tray_app` from the event loop on. -/
structure CoordResult where
  logs : List CoordLog
  flagWrites : List Bool
  flagFinal : Bool
  joined : Bool
  ok : Bool

/-- Embedding of `run_tray_app` from the event loop to the return
(`src/main.rs` lines 529-583): run the polling loop; when it exits, store
`true` to the shutdown flag, join the listener thread (outcome given by the
oracle), log a join failure as a non-fatal line, and return Ok. -/
def coordRun (trace : List TryRecvResult) (joinResult : Except String Unit) :
    Option CoordResult :=
  match coordLoop false trace with
  | (logs, writes, some _) =>
    some { logs := logs
            ++ [match joinResult with | .ok _ => .joinOk | .error _ => .joinFailed],
           flagWrites := writes ++ [true],
           flagFinal := true,
           joined := true,
           ok := true }
  | (_, _, none) => none

/-- Every value the coordinator loop stores to the shutdown flag is true. -/
theorem coordLoop_writes_true (trace : List TryRecvResult) :
    ∀ b ∈ (coordLoop false trace).2.1, b = true := by
  induction trace with
  | nil => simp [coordLoop]
  | cons r rest ih =>
    cases r with
    | msg m =>
      cases m with
      | hotkeyError s => simpa [coordLoop] using ih
      | quit => simp [coordLoop]
    | empty => simpa [coordLoop] using ih
    | disconnected => simp [coordLoop]

/-- C9: the coordinator logs and keeps polling on an error message, exits on
quit, treats a channel disconnect as an implicit quit (storing true to the
flag); and whenever the loop exits, the shutdown handshake runs: only the
value true is ever stored to the shutdown flag (monotonic false-to-true),
it is stored at least once, the listener thread is joined, and a join
failure yields only a log line while the coordinator still returns Ok. -/
theorem coordinator_loop_correct (trace : List TryRecvResult)
    (joinResult : Except String Unit) :
    (∀ s rest, coordLoop false (.msg (.hotkeyError s) :: rest)
        = (.errorFromHotkeyThread s :: (coordLoop false rest).1,
           (coordLoop false rest).2.1, (coordLoop false rest).2.2))
    ∧ (∀ rest, coordLoop false (.msg .quit :: rest) = ([.quitReceived], [], some false))
    ∧ (∀ rest, coordLoop false (.disconnected :: rest)
        = ([.channelDisconnected], [true], some true))
    ∧ (∀ rest, coordLoop false (.empty :: rest) = coordLoop false rest)
    ∧ (∀ r, coordRun trace joinResult = some r →
        r.flagWrites ≠ []
        ∧ (∀ b ∈ r.flagWrites, b = true)
        ∧ r.flagFinal = true ∧ r.joined = true ∧ r.ok = true
        ∧ (∀ e, joinResult = .error e → CoordLog.joinFailed ∈ r.logs)
        ∧ (joinResult = .ok () → CoordLog.joinFailed ∉ r.logs
            ∨ CoordLog.joinFailed ∈ (coordLoop false trace).1)) := by
  refine ⟨fun s rest => rfl, fun rest => rfl, fun rest => rfl, fun rest => rfl, ?_⟩
  intro r hr
  unfold coordRun at hr
  rcases hcl : coordLoop false trace with ⟨logs, writes, exit⟩
  rw [hcl] at hr
  cases exit with
  | none => simp at hr
  | some fl =>
    simp only [Option.some_inj] at hr
    subst hr
    refine ⟨by simp, ?_, rfl, rfl, rfl, ?_, ?_⟩
    · intro b hb
      rcases List.mem_append.mp hb with h1 | h1
      · have hw := coordLoop_writes_true trace
        rw [hcl] at hw
        exact hw b h1
      · simpa using h1
    · intro e hje
      subst hje
      simp
    · intro hjo
      subst hjo
      by_cases hmem : CoordLog.joinFailed ∈ logs
      · exact Or.inr hmem
      · exact Or.inl (by simp [hmem])

/-- Witness for C9: a trace that sees one error then quit, with a failing
join: the handshake stores true, joins, logs the join failure, returns Ok. -/
theorem coordinator_loop_correct_witness :
    coordRun [.msg (.hotkeyError "boom"), .msg .quit] (.error "panicked")
        = some { logs := [.errorFromHotkeyThread "boom", .quitReceived, .joinFailed],
                 flagWrites := [true], flagFinal := true, joined := true, ok := true }
    ∧ CoordLog.joinFailed
        ∈ [CoordLog.errorFromHotkeyThread "boom", .quitReceived, .joinFailed] := by
  refine ⟨rfl, ?_⟩
  have h := (coordinator_loop_correct [.msg (.hotkeyError "boom"), .msg .quit]
      (.error "panicked")).2.2.2.2
      { logs := [.errorFromHotkeyThread "boom", .quitReceived, .joinFailed],
        flagWrites := [true], flagFinal := true, joined := true, ok := true } rfl
  exact h.2.2.2.2.2.1 "panicked" rfl

/-! ### Startup validation (`validate_configured_devices`, src/main.rs) -/

/-- Log lines of the startup validation pass. -/
inductive ValidateLog where
  | listOutputFailed (cause : String)
  | listInputFailed (cause : String)
  | outputDeviceNotFound (entry : String)
  | inputDeviceNotFound (entry : String)
deriving DecidableEq, Repr

/-- Embedding of `validate_configured_devices` (`src/main.rs` lines
319-382).  Oracles: the two device enumerations and the skim scorer.  On an
enumeration failure the source logs an error and returns early — at that
point both missing-device vectors are still empty, so the result is four
empty lists.  Otherwise every configured mapping is checked (fuzzy: any
candidate the scorer scores; exact: any candidate with equal name) and the
missing entries are collected as "name (hotkey: keys)". -/
def validate_configured_devices (score : String → String → Option Int)
    (listOutput listInput : Except String (List AudioDevice))
    (config : Config) :
    List ValidateLog × (List String × List String × List String × List String) :=
  match listOutput with
  | .error e => ([.listOutputFailed e], ([], [], [], []))
  | .ok available_output_devices =>
    match listInput with
    | .error e => ([.listInputFailed e], ([], [], [], []))
    | .ok available_input_devices =>
      let available_output_names := available_output_devices.map (fun d => d.name)
      let available_input_names := available_input_devices.map (fun d => d.name)
      let res := config.hotkeys.foldl
        (fun acc mapping =>
          let output_found :=
            if config.fuzzy_match then
              available_output_devices.any
                (fun d => (score d.name mapping.device_name).isSome)
            else
              available_output_devices.any (fun d => d.name == mapping.device_name)
          let acc1 :=
            if output_found then acc
            else
              let entry := mapping.device_name ++ " (hotkey: " ++ mapping.keys ++ ")"
              (acc.1 ++ [ValidateLog.outputDeviceNotFound entry],
                acc.2.1 ++ [entry], acc.2.2)
          match mapping.input_device_name with
          | some input_device_name =>
            let input_found :=
              if config.fuzzy_match then
                available_input_devices.any
                  (fun d => (score d.name input_device_name).isSome)
              else
                available_input_devices.any (fun d => d.name == input_device_name)
            if input_found then acc1
            else
              let entry := input_device_name ++ " (hotkey: " ++ mapping.keys ++ ")"
              (acc1.1 ++ [ValidateLog.inputDeviceNotFound entry],
                acc1.2.1, acc1.2.2 ++ [entry])
          | none => acc1)
        (([], [], []) : List ValidateLog × List String × List String)
      (res.1, (res.2.1, res.2.2, available_output_names, available_input_names))

/-- Embedding of the entry gate of `show_missing_devices_notification`
(`src/main.rs` lines 385-393): the function returns immediately, showing
nothing, when both missing lists are empty; otherwise it shows a warning
message box (the text is not modelled).  The result is whether a
notification is shown. -/
def show_missing_devices_notification (missing_output missing_input
    available_output available_input : List String) : Bool :=
  if missing_output.isEmpty && missing_input.isEmpty then false else true

/-- C10: if listing output (or input) devices fails during startup
validation, the pass only logs the failure and returns four empty lists —
so nothing is flagged missing, the notification gate shows nothing (it
shows a notification exactly when some missing list is nonempty), and
startup continues: validation is total and an enumeration failure here is
not fatal, unlike in the listener thread. -/
theorem validation_enum_failure_nonfatal
    (score : String → String → Option Int) (config : Config) :
    (∀ e listInput, validate_configured_devices score (.error e) listInput config
        = ([.listOutputFailed e], ([], [], [], [])))
    ∧ (∀ outs e, validate_configured_devices score (.ok outs) (.error e) config
        = ([.listInputFailed e], ([], [], [], [])))
    ∧ (∀ mo mi ao ai : List String,
        show_missing_devices_notification mo mi ao ai = false ↔ mo = [] ∧ mi = []) := by
  refine ⟨fun e listInput => rfl, fun outs e => rfl, ?_⟩
  intro mo mi ao ai
  cases mo <;> cases mi <;> simp [show_missing_devices_notification]

/-- Witness for C10: a failing output enumeration with one configured
binding yields four empty lists and no notification. -/
theorem validation_enum_failure_nonfatal_witness :
    validate_configured_devices (fun _ _ => none) (.error "enum failed") (.ok [])
        ⟨false, [⟨"Ctrl+Alt+1", "Studio Monitors", none⟩]⟩
      = ([.listOutputFailed "enum failed"], ([], [], [], []))
    ∧ show_missing_devices_notification [] [] [] [] = false := by
  have h := validation_enum_failure_nonfatal (fun _ _ => none)
      ⟨false, [⟨"Ctrl+Alt+1", "Studio Monitors", none⟩]⟩
  exact ⟨h.1 "enum failed" (.ok []), (h.2.2 [] [] [] []).mpr ⟨rfl, rfl⟩⟩

end SoundSwitch
